import Mathlib

/-!
Shallow embedding of `src/gimap_tool.py` (gmail_imap_tppl): credential
delegation, CLI argument surface, search-criteria translation, IMAP
quoting, per-message sink actions, and the main session flow, together
with theorems settling the specification claims.
-/

namespace GmailImapTppl

/-! ### Credential resolution (src lines 17-31 and 109-122) -/

/-- A google service-account credential object.  `subject` is the identity
the credential impersonates; `delegationSteps` counts how many delegation
derivations produced it (construction with a subject counts as one,
each `with_subject` call adds one). -/
structure Credentials where
  subject : String
  delegationSteps : Nat
deriving Repr, DecidableEq

/-- `service_account.Credentials.from_service_account_info(..., subject=subject)`:
builds the base delegated credential for `subject` (one delegation step). -/
def from_service_account_info (subject : String) : Credentials :=
  { subject := subject, delegationSteps := 1 }

/-- `credentials.with_subject(s)`: re-derives a delegated credential whose
effective subject is `s` (a further delegation step). -/
def Credentials.with_subject (c : Credentials) (s : String) : Credentials :=
  { subject := s, delegationSteps := c.delegationSteps + 1 }

/-- The bearer token finally used for the IMAP exchange: which subject it
was issued for and via how many delegation steps it was derived. -/
structure ResolvedToken where
  issuedFor : String
  delegationSteps : Nat
deriving Repr, DecidableEq

/-- `get_credentials(fcreds, subject)` (src lines 109-122).  `fcreds` is the
open credentials file (`none` models `args.credentials is None`, on which
`json.load` raises `AttributeError`).  Malformed JSON is not modelled; no
claim depends on it. -/
def get_credentials (fcreds : Option String) (subject : String) :
    Except String Credentials :=
  match fcreds with
  | none => Except.error "AttributeError: NoneType object has no attribute read"
  | some _ => Except.ok (from_service_account_info subject)

/-- The credential-resolution section of `main` (src lines 21-31), returning
the `access_token` value used for the IMAP login.  Mirrors the source
statement by statement: the local `subject` defaults to `args.email`, the
base credential is built for it, `subject` is reassigned to `args.email`,
and only when `args.subject != subject` is `delegated_credentials` bound
before `access_token = delegated_credentials.token` is executed; in the
other branch that name is unbound and Python raises `NameError`. -/
def resolveAccessToken (fcreds : Option String) (args_subject : Option String)
    (email : String) : Except String ResolvedToken :=
  let subject := args_subject.getD email
  match get_credentials fcreds subject with
  | Except.error e => Except.error e
  | Except.ok credentials =>
    let subject := email
    if args_subject ≠ some subject then
      let delegated_credentials := credentials.with_subject subject
      Except.ok { issuedFor := delegated_credentials.subject,
                  delegationSteps := delegated_credentials.delegationSteps }
    else
      Except.error "NameError: name delegated_credentials is not defined"

/-! ### CLI argument surface (src lines 125-182)

The argparse declarations mark only the positional `email` as mandatory;
every option, `--credentials` included, is declared without `required=True`,
so acceptance depends only on the positional being present.  The remaining
options are omitted from `argparseAccepts` because none of them can affect
acceptance. -/

def argparseAccepts (email : Option String) (_credentials : Option String) : Bool :=
  email.isSome

/-- argparse `action="append"` semantics for repeated `--uid`: absent gives
`None`; otherwise the collected values, necessarily non-empty, in order. -/
def argparseAppend (uids : List String) : Option (List String) :=
  if uids = [] then none else some uids

/-! ### Search criteria translation (src lines 54-58) -/

inductive SearchCriteria where
  | All : SearchCriteria
  | ByUids : List String → SearchCriteria
  | RawQuery : String → SearchCriteria
deriving Repr, DecidableEq

def quoteChar : Char := Char.ofNat 34

def backslashChar : Char := Char.ofNat 92

/-- Modelled from the spec: the quoting function lives in the external
`imap_tools` library (an out-of-scope collaborator); per the spec it wraps
the value in double quotes after escaping embedded quote and backslash
characters per the protocol string-literal rules.  Per-character escaping. -/
def escapeChar (c : Char) : List Char :=
  if c = backslashChar ∨ c = quoteChar then [backslashChar, c] else [c]

/-- The quoted search string: opening quote, escaped body, closing quote. -/
def quote_imap_string (s : List Char) : List Char :=
  quoteChar :: ((s.map escapeChar).flatten ++ [quoteChar])

def quoteImapStr (s : String) : String :=
  String.mk (quote_imap_string s.data)

/-- `f"X-GM-RAW {quote_imap_string(args.criteria)}"` (src line 58). -/
def xgmRawTerm (q : String) : String :=
  "X-GM-RAW " ++ quoteImapStr q

/-- Criteria selection (src lines 54-58): explicit UIDs win, then the raw
gmail query, else `ALL`. -/
def translateCriteria (uid : Option (List String)) (criteria : Option String) :
    SearchCriteria :=
  match uid with
  | some us => SearchCriteria.ByUids us
  | none =>
    match criteria with
    | some q => SearchCriteria.RawQuery (xgmRawTerm q)
    | none => SearchCriteria.All

/-! ### Protocol string-literal parser (RFC 3501 quoted strings)

Modelled from the spec: the consumer of the quoted search term is the IMAP
protocol (out-of-scope collaborator); a quoted string is delimited by
double quotes, a backslash escapes the following character, and an
unescaped double quote terminates the literal.  The parser succeeds only
when the closing quote ends the input, so an embedded quote acting as a
delimiter would make the parse fail rather than silently truncate. -/

def parseQuotedBody : List Char → Option (List Char)
  | [] => none
  | [c] => if c = quoteChar then some [] else none
  | c :: d :: rest =>
    if c = backslashChar then
      (parseQuotedBody rest).map (fun t => d :: t)
    else if c = quoteChar then
      none
    else
      (parseQuotedBody (d :: rest)).map (fun t => c :: t)

def parseQuoted : List Char → Option (List Char)
  | [] => none
  | c :: rest => if c = quoteChar then parseQuotedBody rest else none

/-! ### headers_only derivation (src lines 32-47) -/

/-- Sequential model of the four `headers_only = False` assignments. -/
def computeHeadersOnly (attachment_folder email_folder : Option String)
    (show_text show_html : Bool) : Bool :=
  let headers_only := true
  let headers_only := if attachment_folder.isSome then false else headers_only
  let headers_only := if email_folder.isSome then false else headers_only
  let headers_only := if show_text then false else headers_only
  let headers_only := if show_html then false else headers_only
  headers_only

/-! ### Path handling (src line 65): `Path(attachment.filename).name`

pathlib drops empty and single-dot components when parsing, keeps
double-dot components, and `name` is the last remaining component (empty
when none remain). -/

def slashChar : Char := '/'

/-- Split a character list on slashes; always returns at least one
(possibly empty) component. -/
def splitSlash : List Char → List (List Char)
  | [] => [[]]
  | c :: rest =>
    match splitSlash rest with
    | [] => [[]]
    | comp :: comps =>
      if c = slashChar then [] :: comp :: comps else (c :: comp) :: comps

/-- The components pathlib keeps: non-empty and not a lone dot. -/
def pathParts (l : List Char) : List (List Char) :=
  (splitSlash l).filter (fun p => !(p == []) && !(p == ['.']))

/-- `Path(s).name`: the final kept component, empty if none. -/
def pathName (l : List Char) : List Char :=
  ((pathParts l).getLast?).getD []

def pathNameStr (s : String) : String :=
  String.mk (pathName s.data)

/-- `attachment_folder_path / name` where `name` has no separator: pathlib
drops an empty part, otherwise inserts one separator. -/
def joinPathStr (dir name : String) : String :=
  if name = "" then dir else dir ++ "/" ++ name

/-- The path handed to `open(fname, "wb")` for an attachment (src line 65). -/
def writtenAttachmentPath (dir filename : String) : String :=
  joinPathStr dir (pathNameStr filename)

/-- Decides that `path` denotes a file strictly inside `dir`: it extends
`dir` by exactly one separator and one component that is non-empty, not a
dot, not a double dot, and separator-free. -/
def insideDir (dir path : List Char) : Bool :=
  let base := path.drop (dir.length + 1)
  path.take (dir.length + 1) == dir ++ [slashChar] &&
  !(base == []) && !(base == ['.']) && !(base == ['.', '.']) &&
  !(base.contains slashChar)

/-! ### Messages, session events and the main flow (src lines 48-84) -/

structure Attachment where
  filename : String
  payload : String
deriving Repr, DecidableEq

structure Msg where
  uid : String
  date : String
  subject : String
  text : String
  html : String
  attachments : List Attachment
  raw : String
deriving Repr, DecidableEq

/-- The parsed argument record `args` as `main` consumes it. -/
structure Args where
  email : String
  subject : Option String := none
  folder : Option String := none
  list_folders : Bool := false
  attachment_folder : Option String := none
  email_folder : Option String := none
  show_text : Bool := false
  show_html : Bool := false
  uid : Option (List String) := none
  no_summary : Bool := false
  criteria : Option String := none
deriving Repr

/-- Observable actions of the session, in program order. -/
inductive Event where
  | connectAuth : String → Event
  | printFolder : String → Event
  | selectFolder : String → Event
  | fetchIssued : SearchCriteria → Bool → Event
  | appendBatch : String → Event
  | writeAttachment : String → String → Event
  | writeEml : String → String → Event
  | printText : String → String → Event
  | printHtml : String → String → Event
  | logout : Event
deriving Repr, DecidableEq

def Event.isSelectFolder : Event → Bool
  | Event.selectFolder _ => true
  | _ => false

def Event.isFetch : Event → Bool
  | Event.fetchIssued _ _ => true
  | _ => false

def Event.isAppend : Event → Bool
  | Event.appendBatch _ => true
  | _ => false

def Event.isSinkAction : Event → Bool
  | Event.writeAttachment _ _ => true
  | Event.writeEml _ _ => true
  | Event.printText _ _ => true
  | Event.printHtml _ _ => true
  | _ => false

/-- The side effects the loop body applies to one message after the
`messages.append(msg)` statement (src lines 63-81), in source order:
attachment writes, raw-message write, text dump, html dump. -/
def sinkEvents (args : Args) (m : Msg) : List Event :=
  (match args.attachment_folder with
   | some dir =>
     m.attachments.map
       (fun a => Event.writeAttachment (writtenAttachmentPath dir a.filename) a.payload)
   | none => []) ++
  (match args.email_folder with
   | some dir => [Event.writeEml (dir ++ "/" ++ m.uid ++ ".eml") m.raw]
   | none => []) ++
  (if args.show_text then [Event.printText m.uid m.text] else []) ++
  (if args.show_html then [Event.printHtml m.uid m.html] else [])

/-- One iteration of the fetch loop (src lines 59-81): the message is
appended to `messages` first, then the sink actions run. -/
def processMessage (args : Args) (m : Msg) : List Event :=
  Event.appendBatch m.uid :: sinkEvents args m

def loopEvents (args : Args) (msgs : List Msg) : List Event :=
  (msgs.map (processMessage args)).flatten

def selectEvents (args : Args) : List Event :=
  match args.folder with
  | some f => [Event.selectFolder f]
  | none => []

/-- One summary-table row per message, in batch order (src lines 95-106). -/
def summaryRows (msgs : List Msg) : List (String × String × String) :=
  msgs.map (fun m => (m.uid, m.date, m.subject))

/-- The IMAP collaborator for one run: the folder names it reports, the
messages its fetch yields in order, and whether the fetch iteration raises
a transport error after yielding them. -/
structure MailboxEnv where
  folders : List String
  fetched : List Msg
  fetchError : Bool
deriving Repr

/-- Outcome of a run: the ordered session events, the process exit code,
and the summary table if one was rendered. -/
structure RunResult where
  trace : List Event
  exitCode : Nat
  summary : Option (List (String × String × String))
deriving Repr, DecidableEq

/-- The session portion of `main` (src lines 48-84), after credential
resolution succeeded.  `--list-folders` prints the folder names and exits 0
from inside the context manager (the logout still runs).  Otherwise the
folder is selected if requested, the criteria are translated, the fetch
loop appends and sinks each yielded message, and the context manager logs
out.  A transport error mid-fetch propagates uncaught: the summary line
(src lines 83-84) is never reached and Python exits 1.  On success the
summary is rendered unless `--no-summary` was given. -/
def mainRun (args : Args) (env : MailboxEnv) : RunResult :=
  if args.list_folders then
    { trace := Event.connectAuth args.email ::
        (env.folders.map Event.printFolder ++ [Event.logout]),
      exitCode := 0,
      summary := none }
  else
    let crit := translateCriteria args.uid args.criteria
    let ho := computeHeadersOnly args.attachment_folder args.email_folder
      args.show_text args.show_html
    let sessionTrace := Event.connectAuth args.email ::
      (selectEvents args ++ [Event.fetchIssued crit ho] ++
        loopEvents args env.fetched ++ [Event.logout])
    if env.fetchError then
      { trace := sessionTrace, exitCode := 1, summary := none }
    else
      { trace := sessionTrace, exitCode := 0,
        summary := if args.no_summary then none
                   else some (summaryRows env.fetched) }

/-- The identifiers appended to `messages`, in order. -/
def batchOrder (t : List Event) : List String :=
  t.filterMap (fun ev =>
    match ev with
    | Event.appendBatch u => some u
    | _ => none)

/-- The attachment writes performed in a trace, in order: target path and
payload.  Each write opens its target with truncation, so the file content
after the run is the payload of the last write to that path. -/
def writesOf (t : List Event) : List (String × String) :=
  t.filterMap (fun ev =>
    match ev with
    | Event.writeAttachment p pay => some (p, pay)
    | _ => none)

/-- All attachment writes of a run with attachment directory `dir`, in
fetch order. -/
def attachmentWrites (dir : String) (msgs : List Msg) : List (String × String) :=
  (msgs.map (fun m =>
    m.attachments.map
      (fun a => (writtenAttachmentPath dir a.filename, a.payload)))).flatten

/-- Content of the file at `p` after a sequence of truncating writes:
the payload of the last write to `p`, if any. -/
def finalContents (writes : List (String × String)) (p : String) : Option String :=
  ((writes.filter (fun w => w.1 == p)).getLast?).map Prod.snd

/-- `block` occurs contiguously inside `t`. -/
def containsBlock (block t : List Event) : Prop :=
  ∃ s u, t = s ++ (block ++ u)

/-! ### Helper lemmas -/

lemma data_append (a b : String) : (a ++ b).data = a.data ++ b.data := rfl

lemma parseQuotedBody_escaped (s : List Char) :
    parseQuotedBody ((s.map escapeChar).flatten ++ [quoteChar]) = some s := by
  induction s with
  | nil => rfl
  | cons c s ih =>
    by_cases hc : c = backslashChar ∨ c = quoteChar
    · simp only [List.map_cons, List.flatten_cons, escapeChar, if_pos hc,
        List.cons_append, List.append_assoc]
      rw [parseQuotedBody]
      simp [ih]
    · push_neg at hc
      simp only [List.map_cons, List.flatten_cons, escapeChar,
        if_neg (by tauto : ¬(c = backslashChar ∨ c = quoteChar)),
        List.cons_append, List.nil_append]
      obtain ⟨d, t, hdt⟩ :=
        List.exists_cons_of_ne_nil
          (by simp : (s.map escapeChar).flatten ++ [quoteChar] ≠ [])
      rw [hdt]
      rw [hdt] at ih
      rw [parseQuotedBody, if_neg hc.1, if_neg hc.2, ih]
      rfl

lemma splitSlash_ne_nil (l : List Char) : splitSlash l ≠ [] := by
  induction l with
  | nil => simp [splitSlash]
  | cons c rest ih =>
    cases h : splitSlash rest with
    | nil => simp [splitSlash, h]
    | cons comp comps =>
      simp only [splitSlash, h]
      by_cases hc : c = slashChar <;> simp [hc]

lemma mem_splitSlash_no_slash (l : List Char) :
    ∀ p ∈ splitSlash l, slashChar ∉ p := by
  induction l with
  | nil =>
    intro p hp
    simp [splitSlash] at hp
    simp [hp]
  | cons c rest ih =>
    intro p hp
    cases h : splitSlash rest with
    | nil => exact absurd h (splitSlash_ne_nil rest)
    | cons comp comps =>
      simp only [splitSlash, h] at hp
      by_cases hc : c = slashChar
      · rw [if_pos hc] at hp
        rcases List.mem_cons.mp hp with hp1 | hp2
        · simp [hp1]
        · exact ih p (h ▸ hp2)
      · rw [if_neg hc] at hp
        rcases List.mem_cons.mp hp with hp1 | hp2
        · subst hp1
          intro hmem
          rcases List.mem_cons.mp hmem with h1 | h2
          · exact hc h1.symm
          · exact ih comp (h ▸ List.mem_cons_self comp comps) h2
        · exact ih p (h ▸ List.mem_cons_of_mem comp hp2)

lemma pathName_mem_or_nil (l : List Char) :
    pathName l = [] ∨ pathName l ∈ pathParts l := by
  cases h : (pathParts l).getLast? with
  | none => left; simp [pathName, h]
  | some p =>
    right
    obtain ⟨ys, hys⟩ := List.getLast?_eq_some_iff.mp h
    simp [pathName, h, hys]

lemma pathName_no_slash (l : List Char) : slashChar ∉ pathName l := by
  rcases pathName_mem_or_nil l with h | h
  · simp [h]
  · exact mem_splitSlash_no_slash l _ (List.mem_of_mem_filter h)

lemma pathName_ne_dot (l : List Char) : pathName l ≠ ['.'] := by
  rcases pathName_mem_or_nil l with h | h
  · simp [h]
  · have hpred := (List.mem_filter.mp h).2
    intro heq
    rw [heq] at hpred
    simp at hpred

/-! ### Sample data for concrete runs -/

/-- A minimal message with the given uid and no bodies or attachments. -/
def sampleMsg (u : String) : Msg :=
  { uid := u, date := "2024-01-01T00:00:00", subject := "subject " ++ u,
    text := "", html := "", attachments := [], raw := "" }

/-! ### Claim theorems -/

/-- C1: the claim says credential resolution always yields a token whose
effective subject is the mailbox email, with exactly one delegation step
when subject == email and exactly two otherwise, always using the
delegated token.  The code instead reads `delegated_credentials.token`
unconditionally: when `--subject` is given equal to the email, that name
is never bound and the run dies with `NameError` (first conjunct); when
`--subject` is omitted, the condition `args.subject != subject` compares
`None` with the email, so a second delegation is still performed and two
steps occur where the claim requires one (second conjunct).  Only the
subject ≠ email case behaves as claimed (third conjunct). -/
theorem c1_credential_resolution_fault :
    resolveAccessToken (some "svc-key.json") (some "alice@example.com")
        "alice@example.com" =
      Except.error "NameError: name delegated_credentials is not defined" ∧
    resolveAccessToken (some "svc-key.json") none "alice@example.com" =
      Except.ok { issuedFor := "alice@example.com", delegationSteps := 2 } ∧
    resolveAccessToken (some "svc-key.json") (some "admin@example.com")
        "alice@example.com" =
      Except.ok { issuedFor := "alice@example.com", delegationSteps := 2 } :=
  ⟨rfl, rfl, rfl⟩

/-- C2 counterexample: fetch aborts after three accumulated messages and
`--no-summary` is absent, yet no summary is rendered (the claim requires a
three-row table); the process exits 1. -/
theorem c2_no_partial_summary_counterexample :
    (mainRun { email := "alice@example.com" }
      { folders := [],
        fetched := [sampleMsg "1", sampleMsg "2", sampleMsg "3"],
        fetchError := true }).summary = none ∧
    (mainRun { email := "alice@example.com" }
      { folders := [],
        fetched := [sampleMsg "1", sampleMsg "2", sampleMsg "3"],
        fetchError := true }).exitCode = 1 :=
  ⟨rfl, rfl⟩

/-- C2 amended: when the fetch loop raises a transport error (outside the
folder-listing mode), the exception propagates past the summary call, so
no summary is rendered at all and the process exits non-zero. -/
theorem c2_fetch_error_skips_summary (args : Args) (env : MailboxEnv)
    (hlf : args.list_folders = false) (herr : env.fetchError = true) :
    (mainRun args env).exitCode = 1 ∧ (mainRun args env).summary = none := by
  simp [mainRun, hlf, herr]

/-- C2 witness: the amended statement at the three-message aborted run. -/
theorem c2_fetch_error_skips_summary_witness :
    (mainRun { email := "alice@example.com" }
      { folders := [],
        fetched := [sampleMsg "1", sampleMsg "2", sampleMsg "3"],
        fetchError := true }).exitCode = 1 ∧
    (mainRun { email := "alice@example.com" }
      { folders := [],
        fetched := [sampleMsg "1", sampleMsg "2", sampleMsg "3"],
        fetchError := true }).summary = none :=
  c2_fetch_error_skips_summary _ _ rfl rfl

/-- C4: search-criteria precedence.  A non-empty `--uid` list yields
`ByUids` regardless of any raw query; an absent list with a raw query
yields the raw-query variant; with neither, `All`.  The translation is a
function into a tagged variant, so exactly one variant is active. -/
theorem c4_search_precedence (uids : List String) (raw : Option String) :
    (uids ≠ [] →
      translateCriteria (argparseAppend uids) raw = SearchCriteria.ByUids uids) ∧
    (∀ q : String,
      translateCriteria (argparseAppend []) (some q) =
        SearchCriteria.RawQuery (xgmRawTerm q)) ∧
    translateCriteria (argparseAppend []) none = SearchCriteria.All := by
  refine ⟨?_, fun q => rfl, rfl⟩
  intro h
  simp [argparseAppend, h, translateCriteria]

/-- C4 witness: two explicit UIDs override a simultaneous raw query. -/
theorem c4_search_precedence_witness :
    translateCriteria (argparseAppend ["101", "202"]) (some "has:attachment") =
      SearchCriteria.ByUids ["101", "202"] :=
  (c4_search_precedence ["101", "202"] (some "has:attachment")).1 (by decide)

/-- C7: `headers_only` is false exactly when at least one of attachment
download, raw-message download, text display, or html display is
requested, and true otherwise; it is computed from those four options. -/
theorem c7_headers_only_derived (attachment_folder email_folder : Option String)
    (show_text show_html : Bool) :
    computeHeadersOnly attachment_folder email_folder show_text show_html = false ↔
      (attachment_folder.isSome = true ∨ email_folder.isSome = true ∨
        show_text = true ∨ show_html = true) := by
  cases attachment_folder <;> cases email_folder <;>
    cases show_text <;> cases show_html <;> simp [computeHeadersOnly]

/-- C9 counterexample: an invocation with the positional email but without
`--credentials` is accepted by the argument parser, contradicting the
claim that parsing fails. -/
theorem c9_missing_credentials_accepted :
    argparseAccepts (some "alice@example.com") none = true := rfl

/-- C9 amended: `--credentials` is declared without `required=True`, so
parsing succeeds with `credentials = None` and the failure happens later,
inside credential loading, where `json.load(None)` raises
`AttributeError`. -/
theorem c9_credentials_optional_fails_late (email : String) (subj : Option String) :
    argparseAccepts (some email) none = true ∧
    resolveAccessToken none subj email =
      Except.error "AttributeError: NoneType object has no attribute read" := by
  exact ⟨rfl, by simp [resolveAccessToken, get_credentials]⟩

/-- C5: for every raw query string, including ones containing quote or
backslash characters, the quoted search term round-trips through the
protocol string-literal rules: parsing the produced term recovers the
literal query content exactly, and an embedded quote never terminates the
literal early (the parser requires the closing quote to end the term).
The produced fetch criteria string is the `X-GM-RAW` prefix followed by
exactly this quoted term. -/
theorem c5_quote_roundtrip (q : String) :
    parseQuoted (quoteImapStr q).data = some q.data ∧
    (xgmRawTerm q).data = "X-GM-RAW ".data ++ (quoteImapStr q).data := by
  refine ⟨?_, rfl⟩
  show parseQuoted (quote_imap_string q.data) = some q.data
  rw [quote_imap_string, parseQuoted]
  simp [parseQuotedBody_escaped]

/-- C6 counterexample: an attachment filename whose final component is a
double dot defeats the confinement property as claimed.  The written path
for filename `evil/..` is `attachments/..`, which denotes the parent of
the attachment directory, not a file inside it; `insideDir` rejects it
(second conjunct) while accepting an ordinary confined path (third
conjunct). -/
theorem c6_dotdot_escape_counterexample :
    writtenAttachmentPath "attachments" "evil/.." = "attachments/.." ∧
    insideDir "attachments".data "attachments/..".data = false ∧
    insideDir "attachments".data "attachments/passwd".data = true :=
  ⟨rfl, by decide, by decide⟩

/-- C6 amended: the written path is always `{dir}/{basename(filename)}`,
the basename contains no separator, and whenever the basename is non-empty
and not the double-dot component the path is strictly inside the
attachment directory.  (A filename whose last kept component is `..`, such
as `evil/..`, instead yields the parent directory itself; the attempted
binary write to it then fails with an I/O error rather than creating a
file.) -/
theorem c6_attachment_path_confined (dir filename : String)
    (h1 : pathName filename.data ≠ [])
    (h2 : pathName filename.data ≠ ['.', '.']) :
    writtenAttachmentPath dir filename = dir ++ "/" ++ pathNameStr filename ∧
    slashChar ∉ (pathNameStr filename).data ∧
    insideDir dir.data (writtenAttachmentPath dir filename).data = true := by
  have hname : pathNameStr filename ≠ "" := by
    intro h
    exact h1 (congrArg String.data h)
  have heq : writtenAttachmentPath dir filename = dir ++ "/" ++ pathNameStr filename := by
    rw [writtenAttachmentPath, joinPathStr, if_neg hname]
  refine ⟨heq, pathName_no_slash filename.data, ?_⟩
  have hdata : (writtenAttachmentPath dir filename).data =
      (dir.data ++ [slashChar]) ++ pathName filename.data := by
    rw [heq, data_append, data_append]
    simp [List.append_assoc]
    exact ⟨rfl, rfl⟩
  rw [insideDir, hdata]
  rw [List.take_left' (by simp), List.drop_left' (by simp)]
  simp only [beq_self_eq_true, Bool.true_and]
  have hdot := pathName_ne_dot filename.data
  have hslash := pathName_no_slash filename.data
  simp [h1, h2, hdot, List.contains_iff_exists_mem_beq]
  exact hslash

/-- C6 witness: the amended statement at the traversal example from the
spec, dir `attachments` and filename `../../etc/passwd`. -/
theorem c6_attachment_path_confined_witness :
    writtenAttachmentPath "attachments" "../../etc/passwd" =
      "attachments" ++ "/" ++ pathNameStr "../../etc/passwd" ∧
    slashChar ∉ (pathNameStr "../../etc/passwd").data ∧
    insideDir "attachments".data
      (writtenAttachmentPath "attachments" "../../etc/passwd").data = true :=
  c6_attachment_path_confined "attachments" "../../etc/passwd" (by decide) (by decide)

/-! ### Trace lemmas for the session flow -/

lemma mainRun_trace (args : Args) (env : MailboxEnv)
    (hlf : args.list_folders = false) :
    (mainRun args env).trace =
      Event.connectAuth args.email ::
        (selectEvents args ++
          [Event.fetchIssued (translateCriteria args.uid args.criteria)
            (computeHeadersOnly args.attachment_folder args.email_folder
              args.show_text args.show_html)] ++
          loopEvents args env.fetched ++ [Event.logout]) := by
  rw [mainRun, if_neg (by simp [hlf])]
  cases env.fetchError <;> simp

lemma batchOrder_sinkEvents (args : Args) (m : Msg) :
    batchOrder (sinkEvents args m) = [] := by
  rw [batchOrder, sinkEvents]
  rw [List.filterMap_append, List.filterMap_append, List.filterMap_append]
  rw [List.filterMap_eq_nil_iff.mpr, List.filterMap_eq_nil_iff.mpr,
    List.filterMap_eq_nil_iff.mpr, List.filterMap_eq_nil_iff.mpr]
  · rfl
  · intro a ha
    cases hsh : args.show_html <;> simp [hsh] at ha <;> simp [ha]
  · intro a ha
    cases hst : args.show_text <;> simp [hst] at ha <;> simp [ha]
  · intro a ha
    cases hef : args.email_folder <;> simp [hef] at ha <;> simp [ha]
  · intro a ha
    cases haf : args.attachment_folder with
    | none =>
      rw [haf] at ha
      simp at ha
    | some dir =>
      rw [haf] at ha
      simp only [List.mem_map] at ha
      obtain ⟨x, _, hx⟩ := ha
      simp [← hx]

lemma batchOrder_loopEvents (args : Args) (msgs : List Msg) :
    batchOrder (loopEvents args msgs) = msgs.map Msg.uid := by
  induction msgs with
  | nil => rfl
  | cons m msgs ih =>
    rw [loopEvents, List.map_cons, List.flatten_cons]
    show batchOrder (processMessage args m ++ (msgs.map (processMessage args)).flatten) = _
    rw [batchOrder, List.filterMap_append]
    have h1 : List.filterMap
        (fun ev => match ev with
          | Event.appendBatch u => some u
          | _ => none) (processMessage args m) = [m.uid] := by
      rw [processMessage, List.filterMap_cons]
      have := batchOrder_sinkEvents args m
      rw [batchOrder] at this
      simp [this]
    rw [h1]
    have h2 := ih
    rw [loopEvents, batchOrder] at h2
    rw [h2, List.map_cons]
    rfl

lemma batchOrder_selectEvents (args : Args) :
    batchOrder (selectEvents args) = [] := by
  rw [selectEvents]
  cases args.folder <;> rfl

lemma mem_flatten_decomp {α : Type} (L : List (List α)) (l : List α) (h : l ∈ L) :
    ∃ s u, L.flatten = s ++ (l ++ u) := by
  induction L with
  | nil => cases h
  | cons a L ih =>
    rcases List.mem_cons.mp h with h1 | h2
    · exact ⟨[], L.flatten, by simp [h1]⟩
    · obtain ⟨s, u, hsu⟩ := ih h2
      exact ⟨a ++ s, u, by simp [hsu, List.append_assoc]⟩

/-! ### Claim theorems (continued) -/

/-- C8: whenever `--list-folders` is supplied, whatever the other options
are, the run authenticates, prints every folder name in transport order,
logs out and exits 0; the trace contains no folder selection, no fetch, no
batch append, no sink action, and no summary is rendered. -/
theorem c8_list_folders_early_exit (args : Args) (env : MailboxEnv)
    (h : args.list_folders = true) :
    (mainRun args env).exitCode = 0 ∧
    (mainRun args env).trace =
      Event.connectAuth args.email ::
        (env.folders.map Event.printFolder ++ [Event.logout]) ∧
    (mainRun args env).summary = none ∧
    (mainRun args env).trace.filter
      (fun ev => ev.isSelectFolder || ev.isFetch ||
        ev.isAppend || ev.isSinkAction) = [] := by
  refine ⟨by simp [mainRun, h], by simp [mainRun, h], by simp [mainRun, h], ?_⟩
  simp only [mainRun, h, if_true]
  rw [List.filter_cons, List.filter_append, List.filter_map]
  simp [Event.isSelectFolder, Event.isFetch, Event.isAppend, Event.isSinkAction,
    Function.comp, List.filter_false]

/-- C8 witness: `--list-folders` together with a raw query and a target
folder still yields only the folder listing and exit 0. -/
theorem c8_list_folders_early_exit_witness :
    (mainRun
      { email := "alice@example.com", list_folders := true,
        folder := some "Archive", criteria := some "has:attachment" }
      { folders := ["INBOX", "Sent"], fetched := [sampleMsg "9"],
        fetchError := false }).exitCode = 0 ∧
    (mainRun
      { email := "alice@example.com", list_folders := true,
        folder := some "Archive", criteria := some "has:attachment" }
      { folders := ["INBOX", "Sent"], fetched := [sampleMsg "9"],
        fetchError := false }).trace =
      Event.connectAuth "alice@example.com" ::
        (["INBOX", "Sent"].map Event.printFolder ++ [Event.logout]) ∧
    (mainRun
      { email := "alice@example.com", list_folders := true,
        folder := some "Archive", criteria := some "has:attachment" }
      { folders := ["INBOX", "Sent"], fetched := [sampleMsg "9"],
        fetchError := false }).summary = none ∧
    (mainRun
      { email := "alice@example.com", list_folders := true,
        folder := some "Archive", criteria := some "has:attachment" }
      { folders := ["INBOX", "Sent"], fetched := [sampleMsg "9"],
        fetchError := false }).trace.filter
      (fun ev => ev.isSelectFolder || ev.isFetch ||
        ev.isAppend || ev.isSinkAction) = [] :=
  c8_list_folders_early_exit _ _ rfl

/-- Concrete run for C3: attachment download enabled, one fetched message
with one attachment. -/
def c3Args : Args :=
  { email := "alice@example.com", attachment_folder := some "att" }

def c3Msg : Msg :=
  { uid := "7", date := "2024-01-02T00:00:00", subject := "att demo",
    text := "", html := "",
    attachments := [{ filename := "hello.txt", payload := "data" }],
    raw := "raw7" }

def c3Env : MailboxEnv :=
  { folders := [], fetched := [c3Msg], fetchError := false }

/-- C3 counterexample: in the loop body the message is appended to the
accumulated batch first (src line 62) and the sink actions run afterwards
(src lines 63-81): in the concrete trace the append event sits at index 2,
before the attachment write at index 3, contradicting the claim that all
sink actions are applied before the append. -/
theorem c3_append_before_sink_counterexample :
    (mainRun c3Args c3Env).trace =
      [Event.connectAuth "alice@example.com",
       Event.fetchIssued SearchCriteria.All false,
       Event.appendBatch "7",
       Event.writeAttachment "att/hello.txt" "data",
       Event.logout] ∧
    (mainRun c3Args c3Env).trace.indexOf (Event.appendBatch "7") = 2 ∧
    (mainRun c3Args c3Env).trace.indexOf
      (Event.writeAttachment "att/hello.txt" "data") = 3 := by
  refine ⟨rfl, ?_, ?_⟩ <;> decide

/-- C3 amended: each fetched message is appended to the batch first and
all configured sink actions are then applied to it, as one contiguous
block per message before the next message is processed; the batch order
equals the fetch order. -/
theorem c3_append_then_sink (args : Args) (env : MailboxEnv) (msg : Msg)
    (hlf : args.list_folders = false) (hm : msg ∈ env.fetched) :
    batchOrder (mainRun args env).trace = env.fetched.map Msg.uid ∧
    containsBlock (Event.appendBatch msg.uid :: sinkEvents args msg)
      (mainRun args env).trace := by
  rw [mainRun_trace args env hlf]
  constructor
  · show List.filterMap _ _ = _
    rw [List.filterMap_cons]
    show batchOrder (selectEvents args ++ _ ++ loopEvents args env.fetched ++ _) = _
    rw [batchOrder, List.filterMap_append, List.filterMap_append,
      List.filterMap_append]
    have h1 := batchOrder_selectEvents args
    have h2 := batchOrder_loopEvents args env.fetched
    rw [batchOrder] at h1 h2
    rw [h1, h2]
    simp
  · have hmem : processMessage args msg ∈ env.fetched.map (processMessage args) :=
      List.mem_map_of_mem _ hm
    obtain ⟨s, u, hsu⟩ :=
      mem_flatten_decomp (env.fetched.map (processMessage args))
        (processMessage args msg) hmem
    refine ⟨Event.connectAuth args.email ::
      (selectEvents args ++
        [Event.fetchIssued (translateCriteria args.uid args.criteria)
          (computeHeadersOnly args.attachment_folder args.email_folder
            args.show_text args.show_html)] ++ s),
      u ++ [Event.logout], ?_⟩
    rw [loopEvents] at *
    rw [hsu]
    show _ = _
    simp [processMessage, List.append_assoc]

/-- C3 witness: the amended statement on the concrete one-message run. -/
theorem c3_append_then_sink_witness :
    batchOrder (mainRun c3Args c3Env).trace = c3Env.fetched.map Msg.uid ∧
    containsBlock (Event.appendBatch c3Msg.uid :: sinkEvents c3Args c3Msg)
      (mainRun c3Args c3Env).trace :=
  c3_append_then_sink c3Args c3Env c3Msg rfl (by simp [c3Env])

/-! ### C10: duplicate attachment basenames -/

lemma filterMap_some_comp {α β : Type} (g : α → β) (l : List α) :
    l.filterMap (fun a => some (g a)) = l.map g := by
  induction l with
  | nil => rfl
  | cons a l ih =>
    rw [List.filterMap_cons]
    simp [ih]

lemma writesOf_sinkEvents (args : Args) (m : Msg) (dir : String)
    (hdir : args.attachment_folder = some dir) :
    writesOf (sinkEvents args m) =
      m.attachments.map
        (fun a => (writtenAttachmentPath dir a.filename, a.payload)) := by
  rw [writesOf, sinkEvents, hdir]
  rw [List.filterMap_append, List.filterMap_append, List.filterMap_append,
    List.filterMap_map]
  have hatt : List.filterMap
      ((fun ev => match ev with
        | Event.writeAttachment p pay => some (p, pay)
        | _ => none) ∘
        (fun a : Attachment =>
          Event.writeAttachment (writtenAttachmentPath dir a.filename) a.payload))
      m.attachments =
      m.attachments.map
        (fun a => (writtenAttachmentPath dir a.filename, a.payload)) :=
    filterMap_some_comp
      (fun a : Attachment => (writtenAttachmentPath dir a.filename, a.payload))
      m.attachments
  rw [hatt]
  have hef : List.filterMap
      (fun ev => match ev with
        | Event.writeAttachment p pay => some (p, pay)
        | _ => none)
      (match args.email_folder with
       | some d => [Event.writeEml (d ++ "/" ++ m.uid ++ ".eml") m.raw]
       | none => []) = [] := by
    cases args.email_folder <;> rfl
  have hst : List.filterMap
      (fun ev => match ev with
        | Event.writeAttachment p pay => some (p, pay)
        | _ => none)
      (if args.show_text then [Event.printText m.uid m.text] else []) = [] := by
    cases args.show_text <;> rfl
  have hsh : List.filterMap
      (fun ev => match ev with
        | Event.writeAttachment p pay => some (p, pay)
        | _ => none)
      (if args.show_html then [Event.printHtml m.uid m.html] else []) = [] := by
    cases args.show_html <;> rfl
  rw [hef, hst, hsh]
  simp

lemma writesOf_loopEvents (args : Args) (msgs : List Msg) (dir : String)
    (hdir : args.attachment_folder = some dir) :
    writesOf (loopEvents args msgs) = attachmentWrites dir msgs := by
  induction msgs with
  | nil => rfl
  | cons m msgs ih =>
    rw [loopEvents, List.map_cons, List.flatten_cons]
    show writesOf (processMessage args m ++ (msgs.map (processMessage args)).flatten) = _
    rw [writesOf, List.filterMap_append]
    have h1 : List.filterMap
        (fun ev => match ev with
          | Event.writeAttachment p pay => some (p, pay)
          | _ => none) (processMessage args m) =
        m.attachments.map
          (fun a => (writtenAttachmentPath dir a.filename, a.payload)) := by
      rw [processMessage, List.filterMap_cons]
      have := writesOf_sinkEvents args m dir hdir
      rw [writesOf] at this
      simp [this]
    rw [h1]
    have h2 := ih
    rw [loopEvents, writesOf] at h2
    rw [h2]
    simp [attachmentWrites]

lemma writesOf_mainRun (args : Args) (env : MailboxEnv) (dir : String)
    (hdir : args.attachment_folder = some dir)
    (hlf : args.list_folders = false) :
    writesOf (mainRun args env).trace = attachmentWrites dir env.fetched := by
  rw [mainRun_trace args env hlf, writesOf, List.filterMap_cons]
  show List.filterMap _ (selectEvents args ++ _ ++ loopEvents args env.fetched ++ _) = _
  rw [List.filterMap_append, List.filterMap_append, List.filterMap_append]
  have h1 : List.filterMap
      (fun ev => match ev with
        | Event.writeAttachment p pay => some (p, pay)
        | _ => none) (selectEvents args) = [] := by
    rw [selectEvents]
    cases args.folder <;> rfl
  have h2 := writesOf_loopEvents args env.fetched dir hdir
  rw [writesOf] at h2
  rw [h1, h2]
  simp

/-- C10: when attachment download is enabled, the writes performed by a
run are exactly one truncating write per attachment in fetch order, each
targeting `{dir}/{basename}`; when two attachments map to the same target
path, the file afterwards holds only the payload of the last such
attachment in fetch order (earlier payloads are overwritten). -/
theorem c10_last_attachment_write_wins (args : Args) (env : MailboxEnv)
    (dir p pay : String) (pre post : List (String × String))
    (hdir : args.attachment_folder = some dir)
    (hlf : args.list_folders = false)
    (hsplit : attachmentWrites dir env.fetched = pre ++ (p, pay) :: post)
    (hlast : ∀ w ∈ post, w.1 ≠ p) :
    writesOf (mainRun args env).trace = attachmentWrites dir env.fetched ∧
    finalContents (writesOf (mainRun args env).trace) p = some pay := by
  have hmain := writesOf_mainRun args env dir hdir hlf
  refine ⟨hmain, ?_⟩
  rw [hmain, hsplit, finalContents, List.filter_append, List.filter_cons]
  have hp : ((p, pay).1 == p) = true := by simp
  rw [if_pos hp]
  have hpost : post.filter (fun w => w.1 == p) = [] := by
    rw [List.filter_eq_nil_iff]
    intro w hw
    simp [hlast w hw]
  rw [hpost]
  have : (pre.filter (fun w => w.1 == p)) ++ (p, pay) :: ([] : List (String × String)) =
      (pre.filter (fun w => w.1 == p)) ++ [(p, pay)] := rfl
  rw [this, List.getLast?_concat]
  rfl

/-- Concrete run for C10: one message carrying two attachments whose
basenames collide (`report.pdf` and `sub/report.pdf`). -/
def c10Msg : Msg :=
  { uid := "9", date := "2024-01-03T00:00:00", subject := "dupe", text := "",
    html := "",
    attachments := [{ filename := "report.pdf", payload := "first" },
                    { filename := "sub/report.pdf", payload := "second" }],
    raw := "raw9" }

def c10Args : Args :=
  { email := "alice@example.com", attachment_folder := some "att" }

def c10Env : MailboxEnv :=
  { folders := [], fetched := [c10Msg], fetchError := false }

/-- C10 witness: both attachments target `att/report.pdf`; after the run
the file holds the payload of the second (last) one. -/
theorem c10_last_attachment_write_wins_witness :
    writesOf (mainRun c10Args c10Env).trace = attachmentWrites "att" c10Env.fetched ∧
    finalContents (writesOf (mainRun c10Args c10Env).trace) "att/report.pdf" =
      some "second" :=
  c10_last_attachment_write_wins c10Args c10Env "att" "att/report.pdf" "second"
    [("att/report.pdf", "first")] [] rfl rfl (by decide) (by simp)

end GmailImapTppl
